import Mathlib

/-!
Verification of the task-prioritization engine and task/column state machine
of a kanban task-tracking web application (source: `src/app.py`).

The embedding models:
 * calendar dates (`Date`) with Python's `date.toordinal` day numbering, so
   that `(due - today).days` becomes `daysBetween`;
 * the date parsers used by the source: `parseDate` for
   `datetime.strptime(s, "%Y-%m-%d")` and `parseIsoDatetime` for
   `datetime.fromisoformat(s).date()` (restricted to ASCII digit strings,
   which is all the source ever stores);
 * the scoring function `score_task` as `scoreTask`, returning `none` where
   the Python code raises (unparseable due date);
 * the ranking function `fetch_today` as `fetchToday` over a snapshot of the
   store, with the implicit `date.today()` reads modelled by an explicit
   `today : Date` argument (one logical clock value per run);
 * the store mutations `add_task`, `move_task`, `delete_task` over a `DB`
   snapshot (list of rows plus the autoincrement counter), with
   `datetime.now().isoformat(timespec="seconds")` modelled by an explicit
   `now : String` argument.
-/

namespace TaskApp

/-- A calendar date, as in Python's `datetime.date`: year, month, day. -/
structure Date where
  y : Nat
  m : Nat
  d : Nat
deriving DecidableEq, Repr

/-- Gregorian leap-year test, as used by `datetime.date`. -/
def isLeap (y : Nat) : Bool :=
  (y % 4 == 0 && y % 100 != 0) || y % 400 == 0

/-- Number of days in month `m` of year `y`. -/
def daysInMonth (y m : Nat) : Nat :=
  if m = 2 then (if isLeap y then 29 else 28)
  else if m = 4 ∨ m = 6 ∨ m = 9 ∨ m = 11 then 30
  else 31

/-- Days in year `y` before the first day of month `m`. -/
def daysBeforeMonth (y m : Nat) : Nat :=
  (List.range (m - 1)).foldl (fun acc i => acc + daysInMonth y (i + 1)) 0

/-- Python `date.toordinal`: day number with 0001-01-01 ↦ 1. -/
def toOrdinal (dt : Date) : Nat :=
  365 * (dt.y - 1) + (dt.y - 1) / 4 - (dt.y - 1) / 100 + (dt.y - 1) / 400
    + daysBeforeMonth dt.y dt.m + dt.d

/-- Python `(a - b).days` for two dates: signed difference of ordinals. -/
def daysBetween (a b : Date) : Int :=
  (toOrdinal a : Int) - (toOrdinal b : Int)

/-- Split a character list at every occurrence of `sep`, like Python's
`str.split(sep)` for a one-character separator. -/
def splitOnChar (sep : Char) : List Char → List (List Char)
  | [] => [[]]
  | c :: cs =>
    match splitOnChar sep cs with
    | [] => if c = sep then [[], []] else [[c]]
    | r :: rs => if c = sep then [] :: r :: rs else (c :: r) :: rs

/-- The numeric value of a non-empty all-digit character list; `none`
otherwise (what Python's `int` does with the digit groups strptime's regex
captures). -/
def digitsToNat? (l : List Char) : Option Nat :=
  if l ≠ [] ∧ l.all Char.isDigit
  then some (l.foldl (fun n c => n * 10 + (c.toNat - 48)) 0) else none

/-- `datetime.strptime(s, "%Y-%m-%d")` over the characters of `s`: the year
is exactly four digits, month and day are one or two digits, and the result
must be a valid calendar date (`datetime` also requires year ≥ 1); anything
else raises `ValueError` in Python, i.e. yields `none` here. -/
def parseDateChars (l : List Char) : Option Date :=
  match splitOnChar '-' l with
  | [ys, ms, ds] =>
    match digitsToNat? ys, digitsToNat? ms, digitsToNat? ds with
    | some y, some m, some d =>
      if ys.length = 4 ∧ 1 ≤ y ∧ ms.length ≤ 2 ∧ 1 ≤ m ∧ m ≤ 12
          ∧ ds.length ≤ 2 ∧ 1 ≤ d ∧ d ≤ daysInMonth y m
      then some ⟨y, m, d⟩ else none
    | _, _, _ => none
  | _ => none

/-- `datetime.strptime(s, "%Y-%m-%d")`, as `Option Date`. -/
def parseDate (s : String) : Option Date := parseDateChars s.data

/-- Is `l` a valid `HH[:MM[:SS]]` time-of-day (two digits each, in range)? -/
def validTime (l : List Char) : Bool :=
  let two (t : List Char) (hi : Nat) : Bool :=
    t.length = 2 && (match digitsToNat? t with | some n => n ≤ hi | none => false)
  match splitOnChar ':' l with
  | [h] => two h 23
  | [h, m] => two h 23 && two m 59
  | [h, m, sec] => two h 23 && two m 59 && two sec 59
  | _ => false

/-- A strict `YYYY-MM-DD` date with zero-padded fields, as accepted by
`date.fromisoformat`. -/
def parseIsoDate (l : List Char) : Option Date :=
  match splitOnChar '-' l with
  | [ys, ms, ds] =>
    match digitsToNat? ys, digitsToNat? ms, digitsToNat? ds with
    | some y, some m, some d =>
      if ys.length = 4 ∧ ms.length = 2 ∧ ds.length = 2 ∧ 1 ≤ y
          ∧ 1 ≤ m ∧ m ≤ 12 ∧ 1 ≤ d ∧ d ≤ daysInMonth y m
      then some ⟨y, m, d⟩ else none
    | _, _, _ => none
  | _ => none

/-- The date part of `datetime.fromisoformat(s)`, as `Option`: a
`YYYY-MM-DD` date (fields zero-padded), optionally followed by a one-character
separator and a valid time of day. The source only ever stores
`datetime.now().isoformat(timespec="seconds")`, i.e. `YYYY-MM-DDTHH:MM:SS`. -/
def parseIsoDatetime (s : String) : Option Date :=
  let l := s.data
  if l.length = 10 then parseIsoDate l
  else if 10 < l.length then
    match parseIsoDate (l.take 10) with
    | some dt => if validTime (l.drop 11) then some dt else none
    | none => none
  else none

/-- The status column names, `STATUSES` in the source. -/
def STATUSES : List String := ["todo", "pending", "progress", "done"]

/-- `PRIORITY_MAP = {"low": 1, "mid": 2, "high": 3}`. -/
def PRIORITY_MAP : List (String × Int) := [("low", 1), ("mid", 2), ("high", 3)]

/-- Python `str.lower()` restricted to ASCII, which covers every enum name
the application compares against. -/
def pyLower (s : String) : String := ⟨s.data.map Char.toLower⟩

/-- `PRIORITY_MAP.get(priority.lower(), 2)` from `add_task`. -/
def priorityOf (s : String) : Int := ((PRIORITY_MAP.lookup (pyLower s)).getD 2)

/-- `status if status in STATUSES else "todo"`, the coercion used by both
`add_task` and `move_task`. -/
def coerceStatus (s : String) : String := if s ∈ STATUSES then s else "todo"

/-- The status-weight dictionary lookup in `score_task`:
`{"progress": 18, "todo": 10, "pending": 2, "done": -9999}.get(status, 10)`. -/
def statusWeight (status : String) : Int :=
  (([("progress", 18), ("todo", 10), ("pending", 2), ("done", -9999)] :
      List (String × Int)).lookup status).getD 10

/-- The due-weight computation in `score_task`, as a function of
`d = (due - today).days`: `35` if overdue, else `max(0, 20 - d)`. -/
def dueWeight (d : Int) : Int :=
  if d < 0 then 35 else max 0 (20 - d)

/-- The priority weight in `score_task`: `priority * 8`. -/
def priorityWeight (priority : Int) : Int := priority * 8

/-- The aging weight in `score_task`: `min(10, max(0, today - created))` when
`created_at` parses with `fromisoformat`, and `0` when it does not (the
`try`/`except` absorbs the failure). -/
def ageWeight (created_at : String) (today : Date) : Int :=
  match parseIsoDatetime created_at with
  | none => 0
  | some created => min 10 (max 0 (daysBetween today created))

/-- `score_task(due_date_str, priority, status, created_at)`. The implicit
`date.today()` read is the explicit argument `today`; an unparseable
`due_date_str` makes `strptime` raise, modelled as `none`. -/
def scoreTask (due_date_str : String) (priority : Int) (status : String)
    (created_at : String) (today : Date) : Option Int :=
  match parseDate due_date_str with
  | none => none
  | some due =>
    some (statusWeight status + dueWeight (daysBetween due today)
      + priorityWeight priority + ageWeight created_at today)

/-- One row of the `tasks` table. -/
structure Task where
  id : Nat
  title : String
  due_date : String
  priority : Int
  created_at : String
  done : Bool
  done_at : Option String
  status : String
deriving DecidableEq, Repr

/-- A snapshot of the store: the rows plus the `AUTOINCREMENT` counter
(sqlite never reuses an id after deletion). -/
structure DB where
  tasks : List Task
  nextId : Nat
deriving DecidableEq, Repr

/-- The HTTP-level outcome of a mutating handler. -/
inductive Resp
  | redirect (url : String)
  | jsonOk
deriving DecidableEq, Repr

/-- `POST /add` (`add_task`): validate the due date with `strptime` — on
failure redirect with the error indicator and touch nothing; on success map
the priority and status strings, stamp `created_at` (the `datetime.now()`
read is the explicit `now` argument), and insert the row with `done=0` and
no `done_at`. -/
def addTask (db : DB) (title due_date priority status : String) (now : String) :
    DB × Resp :=
  match parseDate due_date with
  | none => (db, Resp.redirect "/?error=bad_date")
  | some _ =>
    let p := priorityOf priority
    let st := coerceStatus status
    let row : Task :=
      { id := db.nextId, title := title, due_date := due_date, priority := p,
        created_at := now, done := false, done_at := none, status := st }
    ({ tasks := db.tasks ++ [row], nextId := db.nextId + 1 },
     Resp.redirect "/")

/-- `POST /delete/(task_id)` (`delete_task`): `DELETE FROM tasks WHERE id=?`,
then redirect to the board. -/
def deleteTask (db : DB) (taskId : Nat) : DB × Resp :=
  ({ db with tasks := db.tasks.filter (fun t => t.id != taskId) },
   Resp.redirect "/")

/-- `POST /move/(task_id)` (`move_task`): coerce the requested status; if it resolves
to `done`, set `done=1` and `done_at=now`, otherwise set `done=0` and clear
`done_at` — on every row whose id matches. -/
def moveTask (db : DB) (taskId : Nat) (statusRaw : String) (now : String) :
    DB × Resp :=
  let st := coerceStatus statusRaw
  ({ db with tasks := db.tasks.map (fun t =>
      if t.id = taskId then
        if st = "done" then
          { t with status := "done", done := true, done_at := some now }
        else
          { t with status := st, done := false, done_at := none }
      else t) },
   Resp.jsonOk)

/-- `SELECT * FROM tasks WHERE status != 'done' ORDER BY id ASC`
(`insertionSort` is a stable sort, so it realises the deterministic
ascending-id ordering). -/
def openRows (db : DB) : List Task :=
  (db.tasks.filter (fun t => t.status != "done")).insertionSort
    (fun a b => a.id ≤ b.id)

/-- The scoring loop of `fetch_today`: score every open row in order; the
exception raised by `score_task` on an unparseable due date propagates and
aborts the whole computation (`none`). -/
def scoreRows (today : Date) : List Task → Option (List (Int × Task))
  | [] => some []
  | r :: rest =>
    match scoreTask r.due_date r.priority r.status r.created_at today,
        scoreRows today rest with
    | some s, some l => some ((s, r) :: l)
    | _, _ => none

/-- `due_days(r)` in `fetch_today`, with the `date.today()` read modelled by
`today`. The `none` fallback is unreachable from `fetchToday`: `score_task`
has already parsed the very same string. -/
def dueDaysD (due_date_str : String) (today : Date) : Int :=
  match parseDate due_date_str with
  | some due => daysBetween due today
  | none => 0

/-- The Python sort key `(-score, due_days(r), -priority, id)`. -/
def keyTuple (today : Date) (x : Int × Task) : Int × Int × Int × Int :=
  (-x.1, dueDaysD x.2.due_date today, -x.2.priority, (x.2.id : Int))

/-- Lexicographic comparison of sort keys, as Python compares tuples. -/
def tupLe (a b : Int × Int × Int × Int) : Prop :=
  a.1 < b.1 ∨ (a.1 = b.1 ∧ (a.2.1 < b.2.1 ∨ (a.2.1 = b.2.1
    ∧ (a.2.2.1 < b.2.2.1 ∨ (a.2.2.1 = b.2.2.1 ∧ a.2.2.2 ≤ b.2.2.2)))))

instance : DecidableRel tupLe := fun a b => by
  unfold tupLe
  infer_instance

/-- The comparison realising `scored.sort(key=...)`. -/
def rankLe (today : Date) (a b : Int × Task) : Prop :=
  tupLe (keyTuple today a) (keyTuple today b)

instance (today : Date) : DecidableRel (rankLe today) := fun a b => by
  unfold rankLe
  infer_instance

/-- `fetch_today(top)`: take the open rows in id order, score them, sort by
the key and truncate to `top`. Python's `list.sort` and `insertionSort` are
both stable sorts, and a stable sort's output is unique, so they agree. -/
def fetchToday (db : DB) (top : Nat) (today : Date) :
    Option (List (Int × Task)) :=
  match scoreRows today (openRows db) with
  | none => none
  | some scored => some ((scored.insertionSort (rankLe today)).take top)

/-- `fetch_today` with its default argument `top=5`. -/
def fetchTodayDefault (db : DB) (today : Date) : Option (List (Int × Task)) :=
  fetchToday db 5 today

/-- The legacy-flag invariant of the data model: `done` mirrors
`status == "done"`, and `done_at` is set exactly for done tasks. -/
def doneInvariant (t : Task) : Prop :=
  (t.done = true ↔ t.status = "done") ∧ (t.done_at ≠ none ↔ t.status = "done")

/-- Erasing the fields that scoring and ranking never read. -/
def stripTask (t : Task) : Task :=
  { t with title := "", done := false, done_at := none }

/-- Scenario-C fixture: due three days after the reference date 2025-10-12,
created two days before it (score 10 + 17 + 16 + 2 = 45). -/
def taskX : Task :=
  ⟨1, "X", "2025-10-15", 2, "2025-10-10T00:00:00", false, none, "todo"⟩

/-- Scenario-C fixture: due one day after the reference date 2025-10-12,
created on it (score 10 + 19 + 16 + 0 = 45, tying with `taskX`). -/
def taskY : Task :=
  ⟨2, "Y", "2025-10-13", 2, "2025-10-12T00:00:00", false, none, "todo"⟩

/-- Scenario-C fixture store holding `taskX` and `taskY`. -/
def dbC : DB := ⟨[taskX, taskY], 3⟩

/-! ### Helper lemmas -/

theorem scoreTask_eq_none {dd : String} {p : Int} {st ca : String} {today : Date} :
    scoreTask dd p st ca today = none ↔ parseDate dd = none := by
  unfold scoreTask
  cases h : parseDate dd <;> simp

theorem scoreTask_isSome {dd : String} {p : Int} {st ca : String} {today : Date}
    (h : parseDate dd ≠ none) : (scoreTask dd p st ca today).isSome = true := by
  unfold scoreTask
  cases hp : parseDate dd with
  | none => exact absurd hp h
  | some due => simp

theorem mem_openRows {db : DB} {t : Task} :
    t ∈ openRows db ↔ t ∈ db.tasks ∧ t.status ≠ "done" := by
  unfold openRows
  rw [List.mem_insertionSort, List.mem_filter]
  simp [bne_iff_ne]

theorem scoreRows_eq_none {today : Date} {rows : List Task} :
    scoreRows today rows = none
      ↔ ∃ r ∈ rows, scoreTask r.due_date r.priority r.status r.created_at today = none := by
  induction rows with
  | nil => simp [scoreRows]
  | cons r rest ih =>
    unfold scoreRows
    cases h1 : scoreTask r.due_date r.priority r.status r.created_at today with
    | none =>
      cases h2 : scoreRows today rest with
      | none =>
        simp only [List.mem_cons]
        exact ⟨fun _ => ⟨r, Or.inl rfl, h1⟩, fun _ => trivial⟩
      | some l =>
        simp only [List.mem_cons]
        exact ⟨fun _ => ⟨r, Or.inl rfl, h1⟩, fun _ => trivial⟩
    | some s =>
      cases h2 : scoreRows today rest with
      | none =>
        simp only [List.mem_cons]
        refine ⟨fun _ => ?_, fun _ => trivial⟩
        obtain ⟨x, hx, hxn⟩ := ih.mp h2
        exact ⟨x, Or.inr hx, hxn⟩
      | some l =>
        simp only [List.mem_cons]
        constructor
        · intro hcon
          exact absurd hcon (by simp)
        · rintro ⟨x, hx, hxn⟩
          rcases hx with rfl | hx
          · rw [h1] at hxn
            exact absurd hxn (by simp)
          · have hrest : scoreRows today rest = none := ih.mpr ⟨x, hx, hxn⟩
            rw [h2] at hrest
            exact absurd hrest (by simp)

theorem scoreRows_isSome {today : Date} {rows : List Task}
    (h : ∀ r ∈ rows, parseDate r.due_date ≠ none) :
    (scoreRows today rows).isSome = true := by
  cases hs : scoreRows today rows with
  | some l => rfl
  | none =>
    obtain ⟨r, hr, hrn⟩ := scoreRows_eq_none.mp hs
    exact absurd (scoreTask_eq_none.mp hrn) (h r hr)

theorem scoreRows_length {today : Date} : ∀ {rows : List Task} {l : List (Int × Task)},
    scoreRows today rows = some l → l.length = rows.length := by
  intro rows
  induction rows with
  | nil =>
    intro l h
    unfold scoreRows at h
    injection h with h
    subst h
    simp
  | cons r rest ih =>
    intro l h
    unfold scoreRows at h
    cases h1 : scoreTask r.due_date r.priority r.status r.created_at today with
    | none => rw [h1] at h; exact absurd h (by simp)
    | some s =>
      rw [h1] at h
      cases h2 : scoreRows today rest with
      | none => rw [h2] at h; exact absurd h (by simp)
      | some l2 =>
        rw [h2] at h
        simp only [Option.some.injEq] at h
        subst h
        simp [ih h2]

theorem scoreRows_mem {today : Date} : ∀ {rows : List Task} {l : List (Int × Task)},
    scoreRows today rows = some l →
      (∀ x ∈ l, x.2 ∈ rows
        ∧ scoreTask x.2.due_date x.2.priority x.2.status x.2.created_at today = some x.1)
      ∧ (∀ r ∈ rows, ∃ s,
          scoreTask r.due_date r.priority r.status r.created_at today = some s
          ∧ (s, r) ∈ l) := by
  intro rows
  induction rows with
  | nil =>
    intro l h
    unfold scoreRows at h
    injection h with h
    subst h
    simp
  | cons r rest ih =>
    intro l h
    unfold scoreRows at h
    cases h1 : scoreTask r.due_date r.priority r.status r.created_at today with
    | none => rw [h1] at h; exact absurd h (by simp)
    | some s =>
      rw [h1] at h
      cases h2 : scoreRows today rest with
      | none => rw [h2] at h; exact absurd h (by simp)
      | some l2 =>
        rw [h2] at h
        simp only [Option.some.injEq] at h
        subst h
        obtain ⟨sound, complete⟩ := ih h2
        constructor
        · intro x hx
          rcases List.mem_cons.mp hx with rfl | hx
          · exact ⟨List.mem_cons_self .., h1⟩
          · obtain ⟨hmem, hsc⟩ := sound x hx
            exact ⟨List.mem_cons_of_mem _ hmem, hsc⟩
        · intro q hq
          rcases List.mem_cons.mp hq with rfl | hq
          · exact ⟨s, h1, List.mem_cons_self ..⟩
          · obtain ⟨s2, hs2, hmem⟩ := complete q hq
            exact ⟨s2, hs2, List.mem_cons_of_mem _ hmem⟩

example : parseDate "2025-10-13" = some ⟨2025, 10, 13⟩ := by decide
example : parseDate "2025-02-30" = none := by decide
example : parseDate "2025-10-13x" = none := by decide
example : parseIsoDatetime "2025-10-12T09:00:00" = some ⟨2025, 10, 12⟩ := by decide
example : parseIsoDatetime "garbage" = none := by decide
example : daysBetween ⟨2025, 10, 13⟩ ⟨2025, 10, 12⟩ = 1 := by decide
example : daysBetween ⟨2025, 3, 1⟩ ⟨2025, 2, 28⟩ = 1 := by decide
example : daysBetween ⟨2024, 3, 1⟩ ⟨2024, 2, 28⟩ = 2 := by decide
example :
    scoreTask "2025-10-13" 3 "todo" "2025-10-12T09:00:00" ⟨2025, 10, 12⟩
      = some 53 := by decide

theorem tupLe_total (a b : Int × Int × Int × Int) : tupLe a b ∨ tupLe b a := by
  unfold tupLe
  omega

theorem tupLe_trans (a b c : Int × Int × Int × Int) :
    tupLe a b → tupLe b c → tupLe a c := by
  unfold tupLe
  omega

theorem openRows_map_strip (db : DB) :
    openRows ⟨db.tasks.map stripTask, db.nextId⟩ = (openRows db).map stripTask := by
  unfold openRows
  rw [List.filter_map]
  have hfilter :
      ((fun t : Task => t.status != "done") ∘ stripTask)
        = (fun t : Task => t.status != "done") := rfl
  rw [hfilter]
  exact (List.map_insertionSort (fun a b : Task => a.id ≤ b.id)
    (fun a b : Task => a.id ≤ b.id) stripTask
    (db.tasks.filter (fun t => t.status != "done"))
    (fun a _ b _ => Iff.rfl)).symm

theorem scoreRows_map_strip (today : Date) (rows : List Task) :
    scoreRows today (rows.map stripTask)
      = (scoreRows today rows).map (List.map (fun x => (x.1, stripTask x.2))) := by
  induction rows with
  | nil => rfl
  | cons r rest ih =>
    rw [List.map_cons]
    unfold scoreRows
    have heq : scoreTask (stripTask r).due_date (stripTask r).priority
        (stripTask r).status (stripTask r).created_at today
        = scoreTask r.due_date r.priority r.status r.created_at today := rfl
    rw [heq, ih]
    cases h1 : scoreTask r.due_date r.priority r.status r.created_at today with
    | none => rfl
    | some s =>
      cases h2 : scoreRows today rest with
      | none => rfl
      | some l => rfl

/-! ### Claim theorems -/

/-- Claim C1: the urgency score is the sum of the four additive weights
(status weight, due weight, priority weight, aging weight); concretely, a
"todo" task with HIGH priority (level 3), due one day after the reference
date and created on the reference date scores 10 + 19 + 24 + 0 = 53, and the
same task overdue by two days scores 10 + 35 + 24 + 0 = 69. -/
theorem score_sum_and_scenarios :
    (∀ (dd : String) (p : Int) (st ca : String) (today due : Date),
      parseDate dd = some due →
      scoreTask dd p st ca today
        = some (statusWeight st + dueWeight (daysBetween due today)
            + priorityWeight p + ageWeight ca today)) ∧
    statusWeight "todo" = 10 ∧ dueWeight 1 = 19 ∧ dueWeight (-2) = 35 ∧
    priorityWeight 3 = 24 ∧ ageWeight "2025-10-12T09:00:00" ⟨2025, 10, 12⟩ = 0 ∧
    scoreTask "2025-10-13" 3 "todo" "2025-10-12T09:00:00" ⟨2025, 10, 12⟩
      = some 53 ∧
    scoreTask "2025-10-10" 3 "todo" "2025-10-12T09:00:00" ⟨2025, 10, 12⟩
      = some 69 := by
  refine ⟨?_, by decide, by decide, by decide, by decide, by decide,
    by decide, by decide⟩
  intro dd p st ca today due h
  unfold scoreTask
  rw [h]

/-- Witness for C1: the sum-of-weights form, instantiated on the scenario-A
task. -/
theorem score_sum_and_scenarios_witness :
    scoreTask "2025-10-13" 3 "todo" "2025-10-12T09:00:00" ⟨2025, 10, 12⟩
      = some (statusWeight "todo"
          + dueWeight (daysBetween ⟨2025, 10, 13⟩ ⟨2025, 10, 12⟩)
          + priorityWeight 3 + ageWeight "2025-10-12T09:00:00" ⟨2025, 10, 12⟩) :=
  score_sum_and_scenarios.1 "2025-10-13" 3 "todo" "2025-10-12T09:00:00"
    ⟨2025, 10, 12⟩ ⟨2025, 10, 13⟩ (by decide)

/-- Claim C5: with status, priority and age fixed, the score is monotonically
non-increasing in d (whole days until due) over d ≥ 0, where the due weight
is max(0, 20 − d) and reaches 0 at d ≥ 20; every d < 0 gets the flat weight
35; at the boundary d = 0 yields 20 while d = −1 yields 35. -/
theorem dueWeight_shape :
    (∀ d1 d2 : Int, 0 ≤ d1 → d1 ≤ d2 → dueWeight d2 ≤ dueWeight d1) ∧
    (∀ d : Int, 0 ≤ d → dueWeight d = max 0 (20 - d)) ∧
    (∀ d : Int, 20 ≤ d → dueWeight d = 0) ∧
    (∀ d : Int, d < 0 → dueWeight d = 35) ∧
    dueWeight 0 = 20 ∧ dueWeight (-1) = 35 ∧
    (∀ sw pw aw d1 d2 : Int, 0 ≤ d1 → d1 ≤ d2 →
      sw + dueWeight d2 + pw + aw ≤ sw + dueWeight d1 + pw + aw) := by
  have hmono : ∀ d1 d2 : Int, 0 ≤ d1 → d1 ≤ d2 → dueWeight d2 ≤ dueWeight d1 := by
    intro d1 d2 h1 h2
    simp only [dueWeight, max_def]
    split_ifs <;> omega
  refine ⟨hmono, ?_, ?_, ?_, by decide, by decide, ?_⟩
  · intro d hd
    simp only [dueWeight]
    rw [if_neg (by omega)]
  · intro d hd
    simp only [dueWeight, max_def]
    split_ifs <;> omega
  · intro d hd
    simp only [dueWeight]
    rw [if_pos hd]
  · intro sw pw aw d1 d2 h1 h2
    have := hmono d1 d2 h1 h2
    omega

/-- Witness for C5: the monotonicity, decay-to-zero and overdue-flat clauses
on concrete offsets. -/
theorem dueWeight_shape_witness :
    dueWeight 5 ≤ dueWeight 3 ∧ dueWeight 3 = max 0 (20 - 3)
      ∧ dueWeight 25 = 0 ∧ dueWeight (-3) = 35 :=
  ⟨dueWeight_shape.1 3 5 (by decide) (by decide),
   dueWeight_shape.2.1 3 (by decide),
   dueWeight_shape.2.2.1 25 (by decide),
   dueWeight_shape.2.2.2.1 (-3) (by decide)⟩

/-- Claim C8: the aging weight is the number of days from the created_at date
to the reference date, clamped to [0, 10]; a malformed or unparseable
created_at yields weight 0, and the score computation still completes. -/
theorem ageWeight_clamped_and_absorbing (ca : String) (today : Date) :
    (parseIsoDatetime ca = none → ageWeight ca today = 0) ∧
    (∀ c, parseIsoDatetime ca = some c →
      ageWeight ca today = min 10 (max 0 (daysBetween today c))) ∧
    0 ≤ ageWeight ca today ∧ ageWeight ca today ≤ 10 ∧
    (∀ (dd : String) (p : Int) (st : String), parseDate dd ≠ none →
      (scoreTask dd p st ca today).isSome = true) := by
  refine ⟨?_, ?_, ?_, ?_, ?_⟩
  · intro h
    unfold ageWeight
    rw [h]
  · intro c h
    unfold ageWeight
    rw [h]
  · unfold ageWeight
    cases parseIsoDatetime ca with
    | none => simp
    | some c =>
      simp only [min_def, max_def]
      split_ifs <;> omega
  · unfold ageWeight
    cases parseIsoDatetime ca with
    | none => simp
    | some c =>
      simp only [min_def, max_def]
      split_ifs <;> omega
  · intro dd p st h
    exact scoreTask_isSome h

/-- Witness for C8: a garbage created_at contributes 0 and does not prevent
the scenario-A task from being scored. -/
theorem ageWeight_clamped_and_absorbing_witness :
    ageWeight "garbage" ⟨2025, 10, 12⟩ = 0 ∧
    (scoreTask "2025-10-13" 3 "todo" "garbage" ⟨2025, 10, 12⟩).isSome = true :=
  ⟨(ageWeight_clamped_and_absorbing "garbage" ⟨2025, 10, 12⟩).1 (by decide),
   (ageWeight_clamped_and_absorbing "garbage" ⟨2025, 10, 12⟩).2.2.2.2
     "2025-10-13" 3 "todo" (by decide)⟩

/-- Claim C10: scoring is total exactly under the precondition that the due
date parses as YYYY-MM-DD — unlike created_at, a malformed due_date is not
absorbed: it yields no score and aborts the entire today ranking, while the
ranking completes whenever every open task's due date is valid. -/
theorem dueDate_validity_decides_ranking :
    (∀ (dd : String) (p : Int) (st ca : String) (today : Date),
      parseDate dd = none → scoreTask dd p st ca today = none) ∧
    (∀ (dd : String) (p : Int) (st ca : String) (today : Date),
      parseDate dd ≠ none → (scoreTask dd p st ca today).isSome = true) ∧
    (∀ (db : DB) (top : Nat) (today : Date),
      (∃ t ∈ db.tasks, t.status ≠ "done" ∧ parseDate t.due_date = none) →
      fetchToday db top today = none) ∧
    (∀ (db : DB) (top : Nat) (today : Date),
      (∀ t ∈ db.tasks, t.status ≠ "done" → parseDate t.due_date ≠ none) →
      (fetchToday db top today).isSome = true) := by
  refine ⟨?_, ?_, ?_, ?_⟩
  · intro dd p st ca today h
    exact scoreTask_eq_none.mpr h
  · intro dd p st ca today h
    exact scoreTask_isSome h
  · rintro db top today ⟨t, ht, hst, hpn⟩
    unfold fetchToday
    have hnone : scoreRows today (openRows db) = none :=
      scoreRows_eq_none.mpr
        ⟨t, mem_openRows.mpr ⟨ht, hst⟩, scoreTask_eq_none.mpr hpn⟩
    rw [hnone]
  · intro db top today h
    unfold fetchToday
    have hsome : (scoreRows today (openRows db)).isSome = true :=
      scoreRows_isSome (fun r hr =>
        h r (mem_openRows.mp hr).1 (mem_openRows.mp hr).2)
    cases hs : scoreRows today (openRows db) with
    | none => rw [hs] at hsome; exact absurd hsome (by simp)
    | some scored => rfl

/-- Witness for C10: a single open task with due date "oops" aborts the
ranking, while the scenario-A store ranks fine. -/
theorem dueDate_validity_decides_ranking_witness :
    fetchToday ⟨[⟨1, "t", "oops", 2, "x", false, none, "todo"⟩], 2⟩ 5
      ⟨2025, 10, 12⟩ = none ∧
    (fetchToday ⟨[⟨1, "t", "2025-10-13", 2, "x", false, none, "todo"⟩], 2⟩ 5
      ⟨2025, 10, 12⟩).isSome = true :=
  ⟨dueDate_validity_decides_ranking.2.2.1
     ⟨[⟨1, "t", "oops", 2, "x", false, none, "todo"⟩], 2⟩ 5 ⟨2025, 10, 12⟩
     ⟨⟨1, "t", "oops", 2, "x", false, none, "todo"⟩, by decide, by decide,
       by decide⟩,
   dueDate_validity_decides_ranking.2.2.2
     ⟨[⟨1, "t", "2025-10-13", 2, "x", false, none, "todo"⟩], 2⟩ 5 ⟨2025, 10, 12⟩
     (by decide)⟩

/-- Claim C3: after every move, the targeted task's done flag and done_at are
recomputed from the resolved status alone — resolved "done" gives done=true
and done_at set to the current instant (so done → done refreshes done_at),
any other resolved status gives done=false and done_at=null — while rows with
a different id are untouched; hence the invariant done=true iff
status="done", and done_at non-null iff status="done", holds for the targeted
task after every move, whatever its prior state. -/
theorem move_done_invariant (db : DB) (taskId : Nat) (raw now : String) :
    ∀ t ∈ (moveTask db taskId raw now).1.tasks,
      (t.id = taskId →
        (coerceStatus raw = "done" →
          t.status = "done" ∧ t.done = true ∧ t.done_at = some now) ∧
        (coerceStatus raw ≠ "done" →
          t.status = coerceStatus raw ∧ t.done = false ∧ t.done_at = none) ∧
        doneInvariant t) ∧
      (t.id ≠ taskId → t ∈ db.tasks) := by
  intro t ht
  simp only [moveTask] at ht
  rw [List.mem_map] at ht
  obtain ⟨s, hs, hst⟩ := ht
  by_cases hid : s.id = taskId
  · rw [if_pos hid] at hst
    by_cases hdone : coerceStatus raw = "done"
    · rw [if_pos hdone] at hst
      subst hst
      refine ⟨fun _ => ⟨fun _ => ⟨rfl, rfl, rfl⟩, fun hne => absurd hdone hne, ?_⟩,
        fun hne => absurd hid hne⟩
      simp [doneInvariant]
    · rw [if_neg hdone] at hst
      subst hst
      refine ⟨fun _ => ⟨fun h => absurd h hdone, fun _ => ⟨rfl, rfl, rfl⟩, ?_⟩,
        fun hne => absurd hid hne⟩
      simp [doneInvariant, hdone]
  · rw [if_neg hid] at hst
    subst hst
    exact ⟨fun heq => absurd heq hid, fun _ => hs⟩

/-- Witness for C3: re-marking an already-done task as done refreshes done_at
to the new instant and keeps the invariant. -/
theorem move_done_invariant_witness :
    (⟨1, "a", "2025-01-01", 2, "c", true, some "new", "done"⟩ : Task).status
        = "done"
      ∧ (⟨1, "a", "2025-01-01", 2, "c", true, some "new", "done"⟩ : Task).done
        = true
      ∧ (⟨1, "a", "2025-01-01", 2, "c", true, some "new", "done"⟩ : Task).done_at
        = some "new" :=
  ((move_done_invariant
      ⟨[⟨1, "a", "2025-01-01", 2, "c", true, some "old", "done"⟩], 2⟩ 1 "done"
      "new" ⟨1, "a", "2025-01-01", 2, "c", true, some "new", "done"⟩
      (by decide)).1 (by decide)).1 (by decide)

/-- Claim C6: unrecognized enum inputs are never errors — every priority
string matching low/mid/high case-insensitively maps to level 1/2/3 and any
other string to 2 (MID); every status string outside the four recognized
names is silently coerced to "todo", both on create and on move. -/
theorem enum_leniency :
    (∀ s : String, priorityOf s
      = if pyLower s = "low" then 1 else if pyLower s = "mid" then 2
        else if pyLower s = "high" then 3 else 2) ∧
    (∀ s : String, s ∉ STATUSES → coerceStatus s = "todo") ∧
    (∀ (db : DB) (title dd pr st now : String), parseDate dd ≠ none →
      ∃ row : Task, (addTask db title dd pr st now).1.tasks = db.tasks ++ [row]
        ∧ row.priority = priorityOf pr ∧ row.status = coerceStatus st) ∧
    (∀ (db : DB) (i : Nat) (raw now : String), raw ∉ STATUSES →
      ∀ t ∈ (moveTask db i raw now).1.tasks, t.id = i → t.status = "todo") := by
  refine ⟨?_, ?_, ?_, ?_⟩
  · intro s
    by_cases h1 : pyLower s = "low"
    · simp [priorityOf, PRIORITY_MAP, List.lookup, h1]
    · by_cases h2 : pyLower s = "mid"
      · simp [priorityOf, PRIORITY_MAP, List.lookup, h1, h2]
      · by_cases h3 : pyLower s = "high"
        · simp [priorityOf, PRIORITY_MAP, List.lookup, h1, h2, h3]
        · have e1 : (pyLower s == "low") = false := by simp [h1]
          have e2 : (pyLower s == "mid") = false := by simp [h2]
          have e3 : (pyLower s == "high") = false := by simp [h3]
          simp [priorityOf, PRIORITY_MAP, List.lookup, e1, e2, e3, h1, h2, h3]
  · intro s h
    simp [coerceStatus, h]
  · intro db title dd pr st now h
    unfold addTask
    cases hp : parseDate dd with
    | none => exact absurd hp h
    | some d =>
      exact ⟨_, rfl, rfl, rfl⟩
  · intro db i raw now hraw t ht hid
    have hcoerce : coerceStatus raw = "todo" := by simp [coerceStatus, hraw]
    simp only [moveTask] at ht
    rw [List.mem_map] at ht
    obtain ⟨s, hs, hst⟩ := ht
    by_cases hsid : s.id = i
    · rw [if_pos hsid] at hst
      rw [hcoerce] at hst
      rw [if_neg (by decide)] at hst
      subst hst
      rfl
    · rw [if_neg hsid] at hst
      subst hst
      exact absurd hid hsid

/-- Witness for C6: "HIGH" maps to 3, "archived" is coerced to "todo", and a
create with unknown enum strings stores MID=2 and "todo". -/
theorem enum_leniency_witness :
    priorityOf "HIGH"
      = (if pyLower "HIGH" = "low" then 1 else if pyLower "HIGH" = "mid" then 2
          else if pyLower "HIGH" = "high" then 3 else 2) ∧
    coerceStatus "archived" = "todo" ∧
    (∃ row : Task,
      (addTask ⟨[], 1⟩ "t" "2025-10-13" "urgent!!" "archived" "now").1.tasks
        = ([] : List Task) ++ [row]
      ∧ row.priority = priorityOf "urgent!!"
      ∧ row.status = coerceStatus "archived") :=
  ⟨enum_leniency.1 "HIGH",
   enum_leniency.2.1 "archived" (by decide),
   enum_leniency.2.2.1 ⟨[], 1⟩ "t" "2025-10-13" "urgent!!" "archived" "now"
     (by decide)⟩

/-- Claim C7: create is atomic in the due-date validation — an invalid
YYYY-MM-DD due date yields the error redirect with the store untouched, and a
valid one appends exactly one new row and redirects to the board. -/
theorem addTask_atomicity (db : DB) (title dd pr st now : String) :
    (parseDate dd = none →
      addTask db title dd pr st now = (db, Resp.redirect "/?error=bad_date")) ∧
    (parseDate dd ≠ none →
      (addTask db title dd pr st now).2 = Resp.redirect "/" ∧
      (addTask db title dd pr st now).1.tasks
        = db.tasks ++ [⟨db.nextId, title, dd, priorityOf pr, now, false, none,
            coerceStatus st⟩] ∧
      (addTask db title dd pr st now).1.nextId = db.nextId + 1) := by
  constructor
  · intro h
    unfold addTask
    rw [h]
  · intro h
    unfold addTask
    cases hp : parseDate dd with
    | none => exact absurd hp h
    | some d => exact ⟨rfl, rfl, rfl⟩

/-- Witness for C7: "2025-13-40" is rejected without a write; "2025-10-13" is
inserted and redirected to the board. -/
theorem addTask_atomicity_witness :
    addTask ⟨[], 1⟩ "t" "2025-13-40" "mid" "todo" "now"
      = (⟨[], 1⟩, Resp.redirect "/?error=bad_date") ∧
    (addTask ⟨[], 1⟩ "t" "2025-10-13" "mid" "todo" "now").1.tasks
      = ([] : List Task) ++ [⟨1, "t", "2025-10-13", priorityOf "mid", "now",
          false, none, coerceStatus "todo"⟩] :=
  ⟨(addTask_atomicity ⟨[], 1⟩ "t" "2025-13-40" "mid" "todo" "now").1 (by decide),
   ((addTask_atomicity ⟨[], 1⟩ "t" "2025-10-13" "mid" "todo" "now").2
      (by decide)).2.1⟩

/-- Claim C9: delete is idempotent — deleting a non-existent id leaves the
store unchanged and still succeeds with the redirect, and applying delete
twice equals applying it once. -/
theorem delete_idempotent (db : DB) (taskId : Nat) :
    deleteTask (deleteTask db taskId).1 taskId = deleteTask db taskId ∧
    (deleteTask db taskId).2 = Resp.redirect "/" ∧
    ((∀ t ∈ db.tasks, t.id ≠ taskId) → (deleteTask db taskId).1 = db) := by
  refine ⟨?_, rfl, ?_⟩
  · unfold deleteTask
    simp [List.filter_filter]
  · intro h
    have hf : db.tasks.filter (fun t => t.id != taskId) = db.tasks :=
      List.filter_eq_self.mpr (fun t ht => by simpa [bne_iff_ne] using h t ht)
    show ({ db with tasks := db.tasks.filter (fun t => t.id != taskId) } : DB)
      = db
    rw [hf]

/-- Witness for C9: deleting the absent id 5 from a one-task store is a
no-op. -/
theorem delete_idempotent_witness :
    (deleteTask ⟨[⟨1, "a", "2025-01-01", 2, "c", false, none, "todo"⟩], 2⟩ 5).1
      = ⟨[⟨1, "a", "2025-01-01", 2, "c", false, none, "todo"⟩], 2⟩ :=
  (delete_idempotent
    ⟨[⟨1, "a", "2025-01-01", 2, "c", false, none, "todo"⟩], 2⟩ 5).2.2
    (by decide)

/-- Claim C2: fetch_today returns the scored open tasks sorted descending by
score with ties broken by ascending signed days-until-due, then descending
priority level, then ascending id (that is, sorted by the lexicographic key
`rankLe`), truncated to the first `limit` entries (default 5); a `limit`
beyond the number of open tasks returns them all; and among equal scores the
task with the smaller days-until-due ranks first. -/
theorem fetchToday_ranking (db : DB) (top : Nat) (today : Date)
    (res : List (Int × Task)) (h : fetchToday db top today = some res) :
    res.Pairwise (rankLe today) ∧
    res.Pairwise (fun a b : Int × Task => a.1 = b.1 →
      dueDaysD a.2.due_date today ≤ dueDaysD b.2.due_date today) ∧
    res.length = min top (openRows db).length ∧
    ((openRows db).length ≤ top → ∀ r ∈ openRows db, ∃ s,
      scoreTask r.due_date r.priority r.status r.created_at today = some s
      ∧ (s, r) ∈ res) ∧
    (∀ x ∈ res, x.2 ∈ openRows db ∧
      scoreTask x.2.due_date x.2.priority x.2.status x.2.created_at today
        = some x.1) ∧
    fetchTodayDefault db today = fetchToday db 5 today := by
  haveI : IsTotal (Int × Task) (rankLe today) := ⟨fun a b => tupLe_total _ _⟩
  haveI : IsTrans (Int × Task) (rankLe today) := ⟨fun a b c => tupLe_trans _ _ _⟩
  unfold fetchToday at h
  cases hs : scoreRows today (openRows db) with
  | none => rw [hs] at h; cases h
  | some scored =>
    rw [hs] at h
    injection h with h
    subst h
    obtain ⟨sound, complete⟩ := scoreRows_mem hs
    have hlen : scored.length = (openRows db).length := scoreRows_length hs
    have hsorted : (scored.insertionSort (rankLe today)).Pairwise (rankLe today) :=
      List.sorted_insertionSort (rankLe today) scored
    have hpair :
        ((scored.insertionSort (rankLe today)).take top).Pairwise (rankLe today) :=
      hsorted.sublist (List.take_sublist _ _)
    refine ⟨hpair, ?_, ?_, ?_, ?_, rfl⟩
    · refine hpair.imp ?_
      intro a b hab
      intro he
      unfold rankLe tupLe keyTuple at hab
      simp only at hab
      omega
    · rw [List.length_take, List.length_insertionSort, hlen]
    · intro hle r hr
      obtain ⟨s, hsc, hmem⟩ := complete r hr
      refine ⟨s, hsc, ?_⟩
      rw [List.take_of_length_le (by rw [List.length_insertionSort, hlen]; exact hle)]
      exact (List.mem_insertionSort (rankLe today)).mpr hmem
    · intro x hx
      have hx2 : x ∈ scored :=
        (List.mem_insertionSort (rankLe today)).mp (List.take_subset _ _ hx)
      exact sound x hx2

/-- Witness for C2: on the scenario-C store the two tasks tie at score 45 and
Y (due in 1 day) ranks before X (due in 3 days); the limit 5 exceeds the two
open tasks, so both are returned. -/
theorem fetchToday_ranking_witness :
    ([(45, taskY), (45, taskX)] : List (Int × Task)).Pairwise
        (rankLe ⟨2025, 10, 12⟩) ∧
    ([(45, taskY), (45, taskX)] : List (Int × Task)).length
        = min 5 (openRows dbC).length ∧
    (∀ x ∈ ([(45, taskY), (45, taskX)] : List (Int × Task)),
      x.2 ∈ openRows dbC ∧
      scoreTask x.2.due_date x.2.priority x.2.status x.2.created_at
        ⟨2025, 10, 12⟩ = some x.1) :=
  ⟨(fetchToday_ranking dbC 5 ⟨2025, 10, 12⟩ [(45, taskY), (45, taskX)]
      (by decide)).1,
   (fetchToday_ranking dbC 5 ⟨2025, 10, 12⟩ [(45, taskY), (45, taskX)]
      (by decide)).2.2.1,
   (fetchToday_ranking dbC 5 ⟨2025, 10, 12⟩ [(45, taskY), (45, taskX)]
      (by decide)).2.2.2.2.1⟩

/-- Counterexample for C4: identical stored task fields yield different
scores when the run happens at different clock dates — score_task reads
`date.today()` internally rather than receiving a caller-supplied reference
date, so the score is not determined by the task inputs alone (here 53
versus 69 for the very same task, three days apart). -/
theorem clock_read_changes_score :
    scoreTask "2025-10-13" 3 "todo" "x" ⟨2025, 10, 12⟩
      ≠ scoreTask "2025-10-13" 3 "todo" "x" ⟨2025, 10, 15⟩ := by decide

/-- Claim C4 (amended): the reference date is not caller-supplied — scoring
and ranking read it from the system clock inside score_task and fetch_today;
modelling that clock read as an explicit input, they are pure: two runs over
the same task fields and the same clock date yield identical results, and the
result depends only on the fields scoring reads (id, due_date, priority,
created_at, status) plus the clock date — erasing title, done and done_at
changes nothing in the ranking except those same fields of the output. -/
theorem ranking_pure_given_clock (db : DB) (top : Nat) (today : Date) :
    (∀ (dd : String) (p : Int) (st ca : String),
      scoreTask dd p st ca today = scoreTask dd p st ca today) ∧
    fetchToday db top today = fetchToday db top today ∧
    fetchToday ⟨db.tasks.map stripTask, db.nextId⟩ top today
      = (fetchToday db top today).map
          (List.map (fun x => (x.1, stripTask x.2))) := by
  refine ⟨fun _ _ _ _ => rfl, rfl, ?_⟩
  unfold fetchToday
  rw [openRows_map_strip, scoreRows_map_strip]
  cases hs : scoreRows today (openRows db) with
  | none => rfl
  | some scored =>
    have hmap := List.map_insertionSort (rankLe today) (rankLe today)
      (fun x : Int × Task => (x.1, stripTask x.2)) scored
      (fun a _ b _ => Iff.rfl)
    show some ((((scored.map (fun x => (x.1, stripTask x.2))).insertionSort
        (rankLe today))).take top)
      = some (((scored.insertionSort (rankLe today)).take top).map
          (fun x => (x.1, stripTask x.2)))
    rw [← hmap, List.map_take]

end TaskApp
